import Mathlib

/-!
# Verification of the x-mcp-server tool and error-handling layer

A shallow embedding, in Lean, of the parts of the repository that the
behavioural claims are about:

* `src/utils/error-handler.ts` — classification of unknown thrown values
  (`isTwitterApiError`, `isRateLimitError`), rate-limit metadata extraction
  (`extractRateLimitInfo`), message sanitisation (`handleError`), error-id
  generation (`generateErrorId`) and the two response builders
  (`createRateLimitErrorResponse`, `createErrorResponse`).
* the tool classes (`SearchTweetsTool`, `GetHomeTimelineTool`,
  `GetUserTweetsTool`, `PostTweetTool`, `LikeTweetTool`, `RetweetTool`):
  their zod `count` parameter schemas and their `execute` bodies, including
  the exact sequence of twitter-api-v2 calls each body issues.
* the success-payload serialisation `JSON.stringify(result, null, 2)`
  together with its inverse `JSON.parse`, modelled by an executable
  pretty-printer and parser over a JSON value type, with a proved
  round-trip theorem.

JavaScript dynamic values are modelled by the inductive `JSVal`; the
twitter-api-v2 client is modelled as an oracle (`ApiClient`) of which each
tool embedding records the exact calls it issues, in order, so that
call-ordering claims are statements about the recorded trace.
-/

/-! ## JavaScript runtime values

The error-handling code receives values of TypeScript type `unknown` and
classifies them structurally (`typeof`, `instanceof Error`, `in`).  `JSVal`
covers the shapes that classification distinguishes: the primitives, native
`Error` instances (carrying their `message`), and plain objects as ordered
field lists.  JS numbers are modelled as integers: every number the error
handler inspects (HTTP codes, rate-limit counters, unix timestamps) is
integral in the source and its tests. -/

inductive JSVal where
  | undef
  | null
  | boolean (b : Bool)
  | number (n : Int)
  | string (s : String)
  /-- A native `Error` instance; only its `message` matters to the handler. -/
  | errorInst (message : String)
  /-- A plain (non-`Error`) object, as an ordered association list. -/
  | object (fields : List (String × JSVal))

namespace JSVal

/-- First-match field lookup (`obj.k`), `none` when the key is absent
(JS yields `undefined`).  Native `Error` instances expose `message`. -/
def getField : JSVal → String → Option JSVal
  | object fields, k => fields.lookup k
  | errorInst m, k => if k = "message" then some (string m) else none
  | _, _ => none

/-- The JS `in` operator restricted to the shapes the handler queries. -/
def hasField (v : JSVal) (k : String) : Bool := (v.getField k).isSome

/-- JS `String(v)` (default conversion) on the shapes `handleError` can reach:
primitives print their canonical text and a plain object prints the
`"[object Object]"` tag of `Object.prototype.toString`. -/
def jsToString : JSVal → String
  | undef => "undefined"
  | null => "null"
  | boolean true => "true"
  | boolean false => "false"
  | number n => toString n
  | string s => s
  | errorInst m => "Error: " ++ m
  | object _ => "[object Object]"

/-- JS truthiness (`if (v)` / `!v`): `undefined`, `null`, `false`, `0` and
`""` are falsy; every object is truthy. -/
def truthy : JSVal → Bool
  | undef => false
  | null => false
  | boolean b => b
  | number n => n != 0
  | string s => s ≠ ""
  | errorInst _ => true
  | object _ => true

end JSVal

/-! ## `src/utils/error-handler.ts` -/

/-- Embedding of the type-guard `isTwitterApiError` (error-handler.ts:20-36):
`typeof error === "object" && error !== null && "code" in error &&
typeof error.code === "number"`.  Of the `JSVal` shapes only a plain object
with a number-valued `code` field passes (a bare `Error` instance carries no
`code`; API errors, which in twitter-api-v2 carry data fields, are modelled
as plain objects exactly as the repository's own tests build them). -/
def isTwitterApiError : JSVal → Bool
  | JSVal.object fields =>
      match (JSVal.object fields).getField "code" with
      | some (JSVal.number _) => true
      | _ => false
  | _ => false

/-- Embedding of `isRateLimitError` (error-handler.ts:43-59): guard with
`isTwitterApiError`, then `"rateLimitError" in error &&
error.rateLimitError === true`, then fall back to `error.code === 429`. -/
def isRateLimitError (error : JSVal) : Bool :=
  if isTwitterApiError error then
    match error.getField "rateLimitError" with
    | some (JSVal.boolean true) => true
    | _ =>
        match error.getField "code" with
        | some (JSVal.number n) => n == 429
        | _ => false
  else false

/-- Normalised rate-limit metadata (error-handler.ts:8-14). -/
structure RateLimitInfo where
  limit : Int
  remaining : Int
  reset : Int
  resetAt : String
  resetInMinutes : Int
deriving DecidableEq, Repr

/-- `new Date(reset * 1000).toISOString()`.  No claim inspects the text of
this timestamp, only that it is propagated; it is modelled as an injective
rendering of the epoch-millisecond value rather than a calendar rendering. -/
def isoTimestamp (ms : Int) : String := "epoch-ms:" ++ toString ms

/-- Ceiling division of integers, `⌈a / b⌉` for a positive divisor, written
with Lean's (floor-rounding) integer division so that it reduces in the
kernel; `ceilDivInt_eq_ceil` below proves it equal to the real ceiling. -/
def ceilDivInt (a b : Int) : Int := -(-a / b)

/-- `Math.ceil((resetDate.getTime() - now.getTime()) / 1000 / 60)` followed by
`Math.max(0, ·)` (error-handler.ts:74-81): exact division by 60 000 ms then
ceiling (`ceilDivInt`, equal to `⌈·⌉` by `ceilDivInt_eq_ceil`), clamped at
zero.  `nowMs` is `Date.now()` in milliseconds. -/
def resetInMinutesOf (resetSec nowMs : Int) : Int :=
  max 0 (ceilDivInt (resetSec * 1000 - nowMs) 60000)

/-- Embedding of `extractRateLimitInfo` (error-handler.ts:66-83).  Absent or
falsy `error.rateLimit` yields `undefined`; well-formed metadata (number
`limit`, `remaining`, `reset`, as the destructuring assumes) yields the
normalised record.  Metadata whose fields are not numbers would propagate
`NaN` in JS; no claim concerns that corner and it is modelled as absence. -/
def extractRateLimitInfo (error : JSVal) (nowMs : Int) : Option RateLimitInfo :=
  if isTwitterApiError error then
    match error.getField "rateLimit" with
    | some rl =>
        if rl.truthy then
          match rl.getField "limit", rl.getField "remaining", rl.getField "reset" with
          | some (JSVal.number limit), some (JSVal.number remaining),
            some (JSVal.number reset) =>
              some { limit := limit, remaining := remaining, reset := reset,
                     resetAt := isoTimestamp (reset * 1000),
                     resetInMinutes := resetInMinutesOf reset nowMs }
          | _, _, _ => none
        else none
    | none => none
  else none

/-- The four random bytes drawn by `crypto.randomBytes(4)`; the randomness
source is outside the embedding, so the bytes are passed in. -/
structure RandBytes where
  b0 : Fin 256
  b1 : Fin 256
  b2 : Fin 256
  b3 : Fin 256

/-- Lower-case hexadecimal digit for `k < 16` (as `Buffer.toString("hex")`
produces). -/
def hexDigitChar (k : Nat) : Char :=
  if k < 10 then Char.ofNat ('0'.toNat + k) else Char.ofNat ('a'.toNat + (k - 10))

/-- The two hex digits of one byte, high nibble first. -/
def byteHex (b : Fin 256) : List Char := [hexDigitChar (b.val / 16), hexDigitChar (b.val % 16)]

/-- Embedding of `generateErrorId` (error-handler.ts:89-91):
`crypto.randomBytes(4).toString("hex")`, eight lower-case hex characters. -/
def generateErrorId (rnd : RandBytes) : String :=
  ⟨byteHex rnd.b0 ++ byteHex rnd.b1 ++ byteHex rnd.b2 ++ byteHex rnd.b3⟩

/-- The return shape of `handleError`. -/
structure SanitizedError where
  message : String
  errorId : String
deriving DecidableEq, Repr

/-- The `message` computed by `handleError` (error-handler.ts:118-129):
an `Error` instance contributes its `message`; a plain object with a
string-valued `message` field contributes that string; a plain object whose
`message` field is present but not a string keeps the initial
`"An unexpected error occurred"`; everything else — primitives, but also a
plain object with **no** `message` field at all — reaches the final `else`
and is converted with `String(error)`. -/
def handleErrorMessage : JSVal → String
  | JSVal.errorInst m => m
  | JSVal.object fields =>
      if (JSVal.object fields).hasField "message" then
        match (JSVal.object fields).getField "message" with
        | some (JSVal.string s) => s
        | _ => "An unexpected error occurred"
      else (JSVal.object fields).jsToString
  | v => v.jsToString

/-- Embedding of `handleError` (error-handler.ts:111-135): a fresh error id
plus the sanitised message.  (`logErrorDetails` writes to the console only
and carries no data into the result.) -/
def handleError (rnd : RandBytes) (error : JSVal) : SanitizedError :=
  { message := handleErrorMessage error, errorId := generateErrorId rnd }

/-- `details.rate_limit` of the rate-limit envelope (error-handler.ts:163-168). -/
structure RateLimitRecord where
  limit : Int
  remaining : Int
  reset_at : String
  reset_in_minutes : Int
deriving DecidableEq, Repr

/-- `details` of the rate-limit envelope (error-handler.ts:160-174); the
spread `...(rateLimitInfo && { ... })` adds `rate_limit` and `message`
together or not at all. -/
structure ErrorDetails where
  original_error : String
  rate_limit : Option RateLimitRecord
  message : Option String
deriving DecidableEq, Repr

/-- The JSON payload serialised into a failure response: the generic shape
`{success, error, error_id}` (error-handler.ts:214-218) or the rate-limit
shape with `error_type` and `details` (error-handler.ts:155-175). -/
structure ErrorEnvelope where
  success : Bool
  error_type : Option String
  error : String
  error_id : String
  details : Option ErrorDetails
deriving DecidableEq, Repr

/-- The `responseData` built by `createRateLimitErrorResponse`
(error-handler.ts:144-186).  `customMessage || "Twitter API rate limit
reached"` falls back on a missing **or empty** (falsy) custom message. -/
def rateLimitResponseData (rnd : RandBytes) (nowMs : Int) (error : JSVal)
    (customMessage : Option String) : ErrorEnvelope :=
  let rateLimitInfo := extractRateLimitInfo error nowMs
  let handled := handleError rnd error
  let errorMessage :=
    match customMessage with
    | some m => if m = "" then "Twitter API rate limit reached" else m
    | none => "Twitter API rate limit reached"
  { success := false
    error_type := some "RATE_LIMIT_EXCEEDED"
    error := errorMessage
    error_id := handled.errorId
    details := some
      { original_error := handled.message
        rate_limit := rateLimitInfo.map fun i =>
          { limit := i.limit, remaining := i.remaining,
            reset_at := i.resetAt, reset_in_minutes := i.resetInMinutes }
        message := rateLimitInfo.map fun i =>
          if 0 < i.resetInMinutes then
            "Please retry in " ++ toString i.resetInMinutes ++ " minute(s)."
          else "Rate limit resets momentarily" } }

/-- The payload serialised by `createErrorResponse` (error-handler.ts:195-226):
the rate-limit envelope when `isRateLimitError`, otherwise the generic
envelope, whose `error` is `` `${customMessage}: ${message}` `` for a truthy
(non-empty) custom message and the bare sanitised message otherwise. -/
def createErrorResponseData (rnd : RandBytes) (nowMs : Int) (error : JSVal)
    (customMessage : Option String) : ErrorEnvelope :=
  if isRateLimitError error then
    rateLimitResponseData rnd nowMs error customMessage
  else
    let handled := handleError rnd error
    let errorMessage :=
      match customMessage with
      | some m => if m = "" then handled.message else m ++ ": " ++ handled.message
      | none => handled.message
    { success := false, error_type := none, error := errorMessage,
      error_id := handled.errorId, details := none }

/-! ## JSON: `JSON.stringify(result, null, 2)` and `JSON.parse`

Success payloads are built as plain records, serialised into the response's
text content with `JSON.stringify(result, null, 2)` and (in the tools that
declare an output schema) mirrored verbatim as `structuredContent`.  `Json`
covers the value grammar those records inhabit: booleans, non-negative
integers (array lengths), strings, arrays and objects.  `stringify` follows
ECMA-262's serialisation with a two-space gap: nested containers indented by
two more spaces, `", "`-free line breaks between items, `": "` after keys,
`[]`/`{}` for empty containers, and string escaping of `"`, `\`, the
shorthand control characters and `\u00XX` for the remaining ones below
U+0020.  `jparse` models `JSON.parse` on this grammar: whitespace-tolerant
recursive descent (structural on a fuel argument, so totality is direct). -/

inductive Json where
  | bool (b : Bool)
  | num (n : Nat)
  | str (s : String)
  | arr (items : List Json)
  | obj (members : List (String × Json))

namespace Json

/-- `c` counts as JSON whitespace (ECMA-404 / `JSON.parse`). -/
def isJsonWs (c : Char) : Bool := c = ' ' || c = '\n' || c = '\t' || c = '\r'

/-- Drop leading JSON whitespace. -/
def dropWs : List Char → List Char
  | c :: cs => if isJsonWs c then dropWs cs else c :: cs
  | [] => []

def isDigitChar (c : Char) : Bool := '0' ≤ c && c ≤ '9'

/-- Split off the leading run of decimal digits. -/
def grabDigits : List Char → List Char × List Char
  | c :: cs =>
      if isDigitChar c then
        let p := grabDigits cs
        (c :: p.1, p.2)
      else ([], c :: cs)
  | [] => ([], [])

/-- Numeric value of a digit run. -/
def digitsVal (ds : List Char) : Nat :=
  ds.foldl (fun acc c => acc * 10 + (c.toNat - '0'.toNat)) 0

/-- Value of one hexadecimal digit character, if it is one. -/
def hexCharVal (c : Char) : Option Nat :=
  let n := c.toNat
  if 48 ≤ n && n ≤ 57 then some (n - 48)
  else if 97 ≤ n && n ≤ 102 then some (n - 87)
  else if 65 ≤ n && n ≤ 70 then some (n - 55)
  else none

/-- Resolve a single-character escape (`\n`, `\t`, …) to the character it
denotes. -/
def escCode : Char → Option Char
  | '"' => some '"'
  | '\\' => some '\\'
  | '/' => some '/'
  | 'b' => some (Char.ofNat 8)
  | 'f' => some (Char.ofNat 12)
  | 'n' => some '\n'
  | 'r' => some '\r'
  | 't' => some '\t'
  | _ => none

/-- Scan a string body (the opening quote already consumed), resolving
escapes, up to the closing quote; `acc` holds the characters read so far in
reverse. -/
def scanString (acc : List Char) : List Char → Option (String × List Char)
  | '"' :: rest => some (⟨acc.reverse⟩, rest)
  | '\\' :: 'u' :: h1 :: h2 :: h3 :: h4 :: rest =>
      match hexCharVal h1, hexCharVal h2, hexCharVal h3, hexCharVal h4 with
      | some v1, some v2, some v3, some v4 =>
          scanString (Char.ofNat (((v1 * 16 + v2) * 16 + v3) * 16 + v4) :: acc) rest
      | _, _, _, _ => none
  | '\\' :: e :: rest =>
      match escCode e with
      | some c => scanString (c :: acc) rest
      | none => none
  | c :: rest => scanString (c :: acc) rest
  | [] => none

mutual
/-- One JSON value, leading whitespace allowed; returns it with the
unconsumed remainder.  Numbers are the unsigned integers the serialiser
emits. -/
def jparseVal (fuel : Nat) (cs : List Char) : Option (Json × List Char) :=
  match fuel with
  | 0 => none
  | fuel + 1 =>
    match dropWs cs with
    | 't' :: 'r' :: 'u' :: 'e' :: rest => some (Json.bool true, rest)
    | 'f' :: 'a' :: 'l' :: 's' :: 'e' :: rest => some (Json.bool false, rest)
    | '"' :: rest =>
        (match scanString [] rest with
         | some (s, rest') => some (Json.str s, rest')
         | none => none)
    | '[' :: rest =>
        (match dropWs rest with
         | c :: rest' =>
             if c = ']' then some (Json.arr [], rest')
             else
               (match jparseItems fuel (c :: rest') with
                | some (items, rest'') => some (Json.arr items, rest'')
                | none => none)
         | [] => none)
    | '{' :: rest =>
        (match dropWs rest with
         | c :: rest' =>
             if c = '}' then some (Json.obj [], rest')
             else
               (match jparseMembers fuel (c :: rest') with
                | some (members, rest'') => some (Json.obj members, rest'')
                | none => none)
         | [] => none)
    | c :: rest =>
        if isDigitChar c then
          let p := grabDigits (c :: rest)
          some (Json.num (digitsVal p.1), p.2)
        else none
    | [] => none
/-- One or more comma-separated array items, consuming the closing `]`. -/
def jparseItems (fuel : Nat) (cs : List Char) : Option (List Json × List Char) :=
  match fuel with
  | 0 => none
  | fuel + 1 =>
    match jparseVal fuel cs with
    | none => none
    | some (v, rest) =>
        match dropWs rest with
        | c :: rest' =>
            if c = ',' then
              (match jparseItems fuel rest' with
               | some (vs, rest'') => some (v :: vs, rest'')
               | none => none)
            else if c = ']' then some ([v], rest')
            else none
        | [] => none
/-- One or more comma-separated `"key": value` members, consuming the
closing `}`. -/
def jparseMembers (fuel : Nat) (cs : List Char) :
    Option (List (String × Json) × List Char) :=
  match fuel with
  | 0 => none
  | fuel + 1 =>
    match dropWs cs with
    | '"' :: rest =>
        (match scanString [] rest with
         | none => none
         | some (key, rest1) =>
             match dropWs rest1 with
             | ':' :: rest2 =>
                 (match jparseVal fuel rest2 with
                  | none => none
                  | some (v, rest3) =>
                      match dropWs rest3 with
                      | c :: rest4 =>
                          if c = ',' then
                            (match jparseMembers fuel rest4 with
                             | some (ms, rest5) => some ((key, v) :: ms, rest5)
                             | none => none)
                          else if c = '}' then some ([(key, v)], rest4)
                          else none
                      | [] => none)
             | _ => none)
    | _ => none
end

/-- `JSON.parse`: a complete document, with nothing but whitespace after it. -/
def jparse (s : String) : Option Json :=
  match jparseVal (s.length + 1) s.data with
  | some (v, rest) => if dropWs rest = [] then some v else none
  | none => none

/-- `n` two-space-gap indentation: the characters of one pretty-printed line
break, newline first. -/
def lineBreak (width : Nat) : List Char := '\n' :: List.replicate width ' '

/-- Lower-case hex digits of `n` over four positions (`\uXXXX`). -/
def fourHex (n : Nat) : List Char :=
  [hexDigitChar (n / 4096 % 16), hexDigitChar (n / 256 % 16),
   hexDigitChar (n / 16 % 16), hexDigitChar (n % 16)]

/-- ECMA-262 `QuoteJSONString`, one character: quote and backslash escaped,
shorthand escapes for the named control characters, `\uXXXX` for the other
code points below U+0020, everything else literal. -/
def quoteChar (c : Char) : List Char :=
  if c = '"' then ['\\', '"']
  else if c = '\\' then ['\\', '\\']
  else if c = Char.ofNat 8 then ['\\', 'b']
  else if c = Char.ofNat 12 then ['\\', 'f']
  else if c = '\n' then ['\\', 'n']
  else if c = '\r' then ['\\', 'r']
  else if c = '\t' then ['\\', 't']
  else if c.toNat < 32 then '\\' :: 'u' :: fourHex c.toNat
  else [c]

/-- A JSON string literal, quotes included. -/
def strLit (s : String) : List Char := '"' :: (s.data.flatMap quoteChar ++ ['"'])

/-- Decimal digits of `n`, most significant first, prepended to `tail`. -/
def natChars (n : Nat) (tail : List Char) : List Char :=
  if h : n < 10 then Char.ofNat ('0'.toNat + n) :: tail
  else natChars (n / 10) (Char.ofNat ('0'.toNat + n % 10) :: tail)
termination_by n
decreasing_by exact Nat.div_lt_self (by omega) (by omega)

mutual
/-- `JSON.stringify(v, null, 2)` at enclosing indentation `width`: ECMA-262
`SerializeJSONObject`/`SerializeJSONArray` with `gap = "  "`. -/
def emitVal (width : Nat) : Json → List Char
  | Json.bool true => ['t', 'r', 'u', 'e']
  | Json.bool false => ['f', 'a', 'l', 's', 'e']
  | Json.num n => natChars n []
  | Json.str s => strLit s
  | Json.arr [] => ['[', ']']
  | Json.arr (x :: xs) =>
      '[' :: (lineBreak (width + 2) ++ emitVal (width + 2) x
        ++ emitMoreItems (width + 2) xs ++ lineBreak width ++ [']'])
  | Json.obj [] => ['{', '}']
  | Json.obj (m :: ms) =>
      '{' :: (lineBreak (width + 2) ++ emitMember (width + 2) m
        ++ emitMoreMembers (width + 2) ms ++ lineBreak width ++ ['}'])
/-- Second and later array items, each preceded by `",\n" ++ indent`. -/
def emitMoreItems (width : Nat) : List Json → List Char
  | [] => []
  | x :: xs => ',' :: (lineBreak width ++ emitVal width x ++ emitMoreItems width xs)
/-- One `"key": value` member. -/
def emitMember (width : Nat) : String × Json → List Char
  | (k, v) => strLit k ++ ':' :: ' ' :: emitVal width v
/-- Second and later members, each preceded by `",\n" ++ indent`. -/
def emitMoreMembers (width : Nat) : List (String × Json) → List Char
  | [] => []
  | m :: ms => ',' :: (lineBreak width ++ emitMember width m ++ emitMoreMembers width ms)
end

/-- `JSON.stringify(v, null, 2)` of a whole document. -/
def stringify (v : Json) : String := ⟨emitVal 0 v⟩

end Json

/-! ## The twitter-api-v2 client as an oracle, and recorded call traces

Each tool's `execute` awaits a short fixed sequence of client calls.  The
client is modelled as a record of response functions (`ApiClient`); every
call either rejects with a thrown `JSVal` or resolves.  The embeddings
return, next to the MCP response, the list of calls issued, in order, so
call-sequencing claims are statements about that trace. -/

/-- `v2.me()` / `v2.userByUsername(u)` response `data`: only `id` (and the
echoed handle) are consumed by the tools. -/
structure TwitterUser where
  id : String
  username : String
deriving DecidableEq, Repr

/-- One element of a timeline/search `data.data` array. -/
structure TweetItem where
  id : String
  text : String
  created_at : Option String
deriving DecidableEq, Repr

/-- `v2.tweet(...)` response `data`. -/
structure PostedTweet where
  id : String
  text : String
deriving DecidableEq, Repr

/-- One awaited twitter-api-v2 call, with the arguments the tool passed. -/
inductive ApiCall where
  | search (query : String) (maxResults : Int)
  | homeTimeline (maxResults : Int)
  | userByUsername (username : String)
  | userTimeline (userId : String) (maxResults : Int)
  | tweet (text : String) (mediaId : Option String)
  | me
  | like (userId : String) (tweetId : String)
  | retweet (userId : String) (tweetId : String)
  | uploadImage (path : String)
  | uploadVideo (path : String)
deriving DecidableEq, Repr

/-- The client oracle.  A `.error e` means the awaited call rejected with the
thrown value `e`.  `Option (List TweetItem)` models a `data.data` array that
may be `undefined`; `Option TwitterUser` models `userByUsername`'s possibly
missing `data`. -/
structure ApiClient where
  search : String → Int → Except JSVal (Option (List TweetItem))
  homeTimeline : Int → Except JSVal (Option (List TweetItem))
  userByUsername : String → Except JSVal (Option TwitterUser)
  userTimeline : String → Int → Except JSVal (Option (List TweetItem))
  tweet : String → Option String → Except JSVal PostedTweet
  me : Except JSVal TwitterUser
  like : String → String → Except JSVal Unit
  retweet : String → String → Except JSVal Unit
  uploadImage : String → Except JSVal String
  uploadVideo : String → Except JSVal String

/-! ## zod `count` parameter schemas

The dispatch surface validates caller arguments against each tool's declared
zod schema before `execute` runs.  For the `count` field the tools declare
two different chains: `z.number().optional()` (SearchTweetsTool,
search-tweets.ts:26, and GetUserTweetsTool, get-user-tweets.ts:18) and
`z.number().int().min(1).max(100).optional()` (GetHomeTimelineTool,
search-tweets.ts:94).  A schema is embedded as its bounds; validation of a
present integer count checks them. -/

structure CountSchema where
  lowerBound : Option Int
  upperBound : Option Int

/-- Whether a present `count` argument passes the schema.  (`z.number()`
alone constrains nothing an integer can violate.) -/
def CountSchema.accepts (s : CountSchema) (n : Int) : Bool :=
  (match s.lowerBound with | some lo => decide (lo ≤ n) | none => true) &&
  (match s.upperBound with | some hi => decide (n ≤ hi) | none => true)

/-- `z.number().optional()` — SearchTweetsTool (search-tweets.ts:26). -/
def searchCountSchema : CountSchema := { lowerBound := none, upperBound := none }

/-- `z.number().optional()` — GetUserTweetsTool (get-user-tweets.ts:18). -/
def userTweetsCountSchema : CountSchema := { lowerBound := none, upperBound := none }

/-- `z.number().int().min(1).max(100).optional()` — GetHomeTimelineTool
(search-tweets.ts:94). -/
def homeTimelineCountSchema : CountSchema := { lowerBound := some 1, upperBound := some 100 }

/-! ## Success payload records and their JSON form -/

/-- `{id, text, created_at}` as mapped from a raw tweet
(e.g. get-user-tweets.ts:67-71); `created_at` is dropped from the JSON when
the raw tweet has none (`JSON.stringify` omits `undefined` properties). -/
def TweetItem.toJson (t : TweetItem) : Json :=
  Json.obj ([("id", Json.str t.id), ("text", Json.str t.text)] ++
    (match t.created_at with
     | some c => [("created_at", Json.str c)]
     | none => []))

/-- The `result` record of PostTweetTool (post-tweet.ts:48-52). -/
structure PostTweetResult where
  tweet_id : String
  text : String
deriving DecidableEq, Repr

def PostTweetResult.toJson (r : PostTweetResult) : Json :=
  Json.obj [("success", Json.bool true), ("tweet_id", Json.str r.tweet_id),
            ("text", Json.str r.text)]

/-- The `result` record of GetHomeTimelineTool (search-tweets.ts:136-144). -/
structure HomeTimelineResult where
  tweets : List TweetItem
deriving DecidableEq, Repr

def HomeTimelineResult.toJson (r : HomeTimelineResult) : Json :=
  Json.obj [("success", Json.bool true), ("count", Json.num r.tweets.length),
            ("tweets", Json.arr (r.tweets.map TweetItem.toJson))]

/-- The `result` record of GetUserTweetsTool (get-user-tweets.ts:62-72). -/
structure UserTweetsResult where
  username : String
  tweets : List TweetItem
deriving DecidableEq, Repr

def UserTweetsResult.toJson (r : UserTweetsResult) : Json :=
  Json.obj [("success", Json.bool true), ("username", Json.str r.username),
            ("count", Json.num r.tweets.length),
            ("tweets", Json.arr (r.tweets.map TweetItem.toJson))]

/-- The serialised object of SearchTweetsTool's success response
(search-tweets.ts:56-66; this variant declares no `structuredContent`). -/
structure SearchResult where
  query : String
  tweets : List TweetItem
deriving DecidableEq, Repr

def SearchResult.toJson (r : SearchResult) : Json :=
  Json.obj [("success", Json.bool true), ("query", Json.str r.query),
            ("count", Json.num r.tweets.length),
            ("tweets", Json.arr (r.tweets.map TweetItem.toJson))]

/-! ## MCP responses and the error-response builders -/

/-- The JSON value serialised into an error response's text content: the
optional fields (`error_type`, `details`, and inside `details` the spread
`rate_limit`/`message` pair) appear exactly when present. -/
def ErrorEnvelope.toJson (e : ErrorEnvelope) : Json :=
  Json.obj
    ([("success", Json.bool e.success)] ++
     (match e.error_type with
      | some t => [("error_type", Json.str t)]
      | none => []) ++
     [("error", Json.str e.error), ("error_id", Json.str e.error_id)] ++
     (match e.details with
      | some d =>
          [("details", Json.obj
            ([("original_error", Json.str d.original_error)] ++
             (match d.rate_limit with
              | some rl =>
                  [("rate_limit", Json.obj
                    [("limit", Json.num rl.limit.toNat),
                     ("remaining", Json.num rl.remaining.toNat),
                     ("reset_at", Json.str rl.reset_at),
                     ("reset_in_minutes", Json.num rl.reset_in_minutes.toNat)])]
              | none => []) ++
             (match d.message with
              | some m => [("message", Json.str m)]
              | none => [])))]
      | none => []))

/-- What a tool's `execute` resolves with: `content[0].text` (the serialised
payload), the optional `structuredContent` mirror, and the `isError` marker
(absent modelled as `false`). -/
structure ToolResponse where
  contentText : String
  structuredContent : Option Json
  isError : Bool

/-- Embedding of `createErrorResponse` (error-handler.ts:195-226, through
`createRateLimitErrorResponse` for rate-limit errors): the envelope of
`createErrorResponseData`, serialised with `JSON.stringify(·, null, 2)`,
marked `isError: true`, no structured content. -/
def createErrorResponse (rnd : RandBytes) (nowMs : Int) (error : JSVal)
    (customMessage : Option String) : ToolResponse :=
  { contentText := Json.stringify (createErrorResponseData rnd nowMs error customMessage).toJson
    structuredContent := none
    isError := true }

/-- A success response carrying a structured mirror: text content is
`JSON.stringify(result, null, 2)` and `structuredContent` is the same
record (post-tweet.ts:54-62, get-user-tweets.ts:74-82,
search-tweets.ts:146-154). -/
def mirroredSuccess (resultJson : Json) : ToolResponse :=
  { contentText := Json.stringify resultJson
    structuredContent := some resultJson
    isError := false }

/-- A success response without a structured mirror (the SearchTweetsTool and
simple-variant responses that only serialise text). -/
def textOnlySuccess (resultJson : Json) : ToolResponse :=
  { contentText := Json.stringify resultJson
    structuredContent := none
    isError := false }

/-! ## The tools' `execute` bodies

Each embedding takes the client oracle, the random bytes a failure would
consume, and the current time, and returns the MCP response paired with the
trace of client calls issued, in program order.  Every `catch` block in the
source delegates to `createErrorResponse` with the tool's fixed prefix. -/

/-- `SearchTweetsTool.execute` (search-tweets.ts:40-76): one `v2.search`
call with `max_results: Math.min(count, 100)` after defaulting
`count = 10`; a missing result array is reported as zero tweets. -/
def SearchTweetsTool.execute (client : ApiClient) (rnd : RandBytes) (nowMs : Int)
    (query : String) (count : Option Int) : ToolResponse × List ApiCall :=
  let maxResults := min (count.getD 10) 100
  match client.search query maxResults with
  | Except.error e =>
      (createErrorResponse rnd nowMs e (some "ツイート検索に失敗しました"),
       [ApiCall.search query maxResults])
  | Except.ok data =>
      (textOnlySuccess (SearchResult.toJson { query := query, tweets := data.getD [] }),
       [ApiCall.search query maxResults])

/-- `GetHomeTimelineTool.execute` (search-tweets.ts:123-158, the variant
with an output schema): one `v2.homeTimeline` call with
`max_results: Math.min(count, 100)` after defaulting `count = 10`; the
result record is serialised as text and mirrored as `structuredContent`. -/
def GetHomeTimelineTool.execute (client : ApiClient) (rnd : RandBytes) (nowMs : Int)
    (count : Option Int) : ToolResponse × List ApiCall :=
  let maxResults := min (count.getD 10) 100
  match client.homeTimeline maxResults with
  | Except.error e =>
      (createErrorResponse rnd nowMs e (some "Failed to fetch home timeline"),
       [ApiCall.homeTimeline maxResults])
  | Except.ok data =>
      (mirroredSuccess (HomeTimelineResult.toJson { tweets := data.getD [] }),
       [ApiCall.homeTimeline maxResults])

/-- `GetUserTweetsTool.execute` (get-user-tweets.ts:44-87): resolve the user
by handle; a missing `user.data` raises
`` new Error(`User @${username} was not found`) `` into the shared catch;
otherwise fetch the user timeline with the clamped count and mirror the
result record. -/
def GetUserTweetsTool.execute (client : ApiClient) (rnd : RandBytes) (nowMs : Int)
    (username : String) (count : Option Int) : ToolResponse × List ApiCall :=
  let maxResults := min (count.getD 10) 100
  match client.userByUsername username with
  | Except.error e =>
      (createErrorResponse rnd nowMs e (some "Failed to fetch user tweets"),
       [ApiCall.userByUsername username])
  | Except.ok none =>
      (createErrorResponse rnd nowMs
         (JSVal.errorInst ("User @" ++ username ++ " was not found"))
         (some "Failed to fetch user tweets"),
       [ApiCall.userByUsername username])
  | Except.ok (some user) =>
      match client.userTimeline user.id maxResults with
      | Except.error e =>
          (createErrorResponse rnd nowMs e (some "Failed to fetch user tweets"),
           [ApiCall.userByUsername username, ApiCall.userTimeline user.id maxResults])
      | Except.ok data =>
          (mirroredSuccess (UserTweetsResult.toJson
             { username := username, tweets := data.getD [] }),
           [ApiCall.userByUsername username, ApiCall.userTimeline user.id maxResults])

/-- `PostTweetTool.execute` (post-tweet.ts:38-66, the text-only variant with
an output schema): one `v2.tweet` call; the created tweet's id and text are
serialised and mirrored. -/
def PostTweetTool.execute (client : ApiClient) (rnd : RandBytes) (nowMs : Int)
    (text : String) : ToolResponse × List ApiCall :=
  match client.tweet text none with
  | Except.error e =>
      (createErrorResponse rnd nowMs e (some "Failed to post tweet"),
       [ApiCall.tweet text none])
  | Except.ok t =>
      (mirroredSuccess (PostTweetResult.toJson { tweet_id := t.id, text := t.text }),
       [ApiCall.tweet text none])

/-- Truthiness of an optional JS string (`if (image_path)`…): present and
non-empty. -/
def optStringTruthy : Option String → Bool
  | some s => s ≠ ""
  | none => false

/-- `` `${(error as Error).message}` ``: the `message` property of the
caught value rendered into a template literal (`"undefined"` when absent). -/
def messagePropText (e : JSVal) : String :=
  match e.getField "message" with
  | some v => v.jsToString
  | none => "undefined"

/-- `PostTweetTool.execute` of the media-capable variant
(post-tweet.ts media variant:111-174): reject a truthy `image_path`
together with a truthy `video_path` before any client call; otherwise
upload whichever medium was supplied (re-throwing upload failures with a
`Failed to upload …` prefix) and publish with or without the media id. -/
def PostTweetMediaTool.execute (client : ApiClient) (rnd : RandBytes) (nowMs : Int)
    (text : String) (image_path video_path : Option String) :
    ToolResponse × List ApiCall :=
  if optStringTruthy image_path && optStringTruthy video_path then
    (createErrorResponse rnd nowMs
       (JSVal.errorInst
         "Cannot attach both image and video to the same tweet. Please provide only one.")
       (some "Failed to post tweet"), [])
  else
    -- if (image_path) { mediaId = await uploadImage(...) }
    let afterImage : Except (ToolResponse × List ApiCall) (Option String × List ApiCall) :=
      match image_path with
      | some p =>
          if p ≠ "" then
            match client.uploadImage p with
            | Except.error e =>
                Except.error
                  (createErrorResponse rnd nowMs
                     (JSVal.errorInst ("Failed to upload image: " ++ messagePropText e))
                     (some "Failed to post tweet"),
                   [ApiCall.uploadImage p])
            | Except.ok mid => Except.ok (some mid, [ApiCall.uploadImage p])
          else Except.ok (none, [])
      | none => Except.ok (none, [])
    match afterImage with
    | Except.error out => out
    | Except.ok (mediaId0, trace0) =>
      -- if (video_path) { mediaId = await uploadVideo(...) }
      let afterVideo : Except (ToolResponse × List ApiCall) (Option String × List ApiCall) :=
        match video_path with
        | some p =>
            if p ≠ "" then
              match client.uploadVideo p with
              | Except.error e =>
                  Except.error
                    (createErrorResponse rnd nowMs
                       (JSVal.errorInst ("Failed to upload video: " ++ messagePropText e))
                       (some "Failed to post tweet"),
                     trace0 ++ [ApiCall.uploadVideo p])
              | Except.ok mid => Except.ok (some mid, trace0 ++ [ApiCall.uploadVideo p])
            else Except.ok (mediaId0, trace0)
        | none => Except.ok (mediaId0, trace0)
      match afterVideo with
      | Except.error out => out
      | Except.ok (mediaId, trace1) =>
          -- mediaId ? tweet({text, media}) : tweet(text)
          let mediaArg := if optStringTruthy mediaId then mediaId else none
          match client.tweet text mediaArg with
          | Except.error e =>
              (createErrorResponse rnd nowMs e (some "Failed to post tweet"),
               trace1 ++ [ApiCall.tweet text mediaArg])
          | Except.ok t =>
              (mirroredSuccess (PostTweetResult.toJson
                 { tweet_id := t.id, text := t.text }),
               trace1 ++ [ApiCall.tweet text mediaArg])

/-- `LikeTweetTool.execute` (like-tweet.ts:31-59): resolve the current user
with `v2.me()`, then `v2.like(me.data.id, tweet_id)`. -/
def LikeTweetTool.execute (client : ApiClient) (rnd : RandBytes) (nowMs : Int)
    (tweet_id : String) : ToolResponse × List ApiCall :=
  match client.me with
  | Except.error e =>
      (createErrorResponse rnd nowMs e (some "Failed to like tweet"), [ApiCall.me])
  | Except.ok me =>
      match client.like me.id tweet_id with
      | Except.error e =>
          (createErrorResponse rnd nowMs e (some "Failed to like tweet"),
           [ApiCall.me, ApiCall.like me.id tweet_id])
      | Except.ok _ =>
          (textOnlySuccess (Json.obj
             [("success", Json.bool true),
              ("message", Json.str ("Liked tweet " ++ tweet_id ++ "."))]),
           [ApiCall.me, ApiCall.like me.id tweet_id])

/-- `RetweetTool.execute` (retweet.ts:31-59): resolve the current user with
`v2.me()`, then `v2.retweet(me.data.id, tweet_id)`. -/
def RetweetTool.execute (client : ApiClient) (rnd : RandBytes) (nowMs : Int)
    (tweet_id : String) : ToolResponse × List ApiCall :=
  match client.me with
  | Except.error e =>
      (createErrorResponse rnd nowMs e (some "Failed to retweet"), [ApiCall.me])
  | Except.ok me =>
      match client.retweet me.id tweet_id with
      | Except.error e =>
          (createErrorResponse rnd nowMs e (some "Failed to retweet"),
           [ApiCall.me, ApiCall.retweet me.id tweet_id])
      | Except.ok _ =>
          (textOnlySuccess (Json.obj
             [("success", Json.bool true),
              ("message", Json.str ("Retweeted tweet " ++ tweet_id ++ "."))]),
           [ApiCall.me, ApiCall.retweet me.id tweet_id])

/-! ## Vocabulary used by the statements below -/

/-- Characters allowed in a `generateErrorId`: lower-case hexadecimal. -/
def isLowerHex (c : Char) : Bool := c.isDigit || ('a' ≤ c && c ≤ 'f')

/-- The `max_results` every count-taking tool passes to its capability call:
`Math.min(count, 100)` after the `count = 10` destructuring default. -/
def effectiveMaxResults (count : Option Int) : Int := min (count.getD 10) 100

/-- A whitespace-only character run. -/
def Json.allWs (cs : List Char) : Bool := cs.all Json.isJsonWs

/-- `cs` cannot extend a decimal number: empty or headed by a non-digit.
Every position following a serialised value inside a pretty-printed
document satisfies this. -/
def Json.safeTail : List Char → Bool
  | [] => true
  | c :: _ => !Json.isDigitChar c

/-- A deterministic all-succeeding client oracle, used to instantiate
universally quantified theorems at a concrete input. -/
def stubClient : ApiClient where
  search := fun _ _ => Except.ok (some [])
  homeTimeline := fun _ => Except.ok none
  userByUsername := fun u => Except.ok (some { id := "42", username := u })
  userTimeline := fun _ _ => Except.ok (some [{ id := "1", text := "hi", created_at := none }])
  tweet := fun t _ => Except.ok { id := "1234567890", text := t }
  me := Except.ok { id := "7", username := "me" }
  like := fun _ _ => Except.ok ()
  retweet := fun _ _ => Except.ok ()
  uploadImage := fun _ => Except.ok "m1"
  uploadVideo := fun _ => Except.ok "m2"

/-- `stubClient` with a rejecting `v2.me()`. -/
def meFailsClient : ApiClient :=
  { stubClient with me := Except.error (JSVal.errorInst "boom") }

/-- Fixed random bytes for concrete instantiations. -/
def rndA : RandBytes := { b0 := 0, b1 := 1, b2 := 171, b3 := 255 }

/-! ## Theorems -/

/-- `ceilDivInt` with a natural divisor is the real ceiling of the exact
quotient. -/
theorem ceilDivInt_eq_ceil (a : Int) (b : Nat) :
    ceilDivInt a (b : Int) = ⌈((a : ℚ) / (b : ℚ))⌉ := by
  have hneg : -((a : ℚ) / (b : ℚ)) = (((-a : Int)) : ℚ) / ((b : Nat) : ℚ) := by
    push_cast; ring
  have hceil : ⌈((a : ℚ) / (b : ℚ))⌉ = -⌊-((a : ℚ) / (b : ℚ))⌋ := by
    rw [Int.floor_neg]; ring
  rw [hceil, hneg, Rat.floor_intCast_div_natCast]
  rfl

/-- Behaviour of the clamped ceiling: zero once the reset time has passed,
and within `(0, 15]` while the reset lies at most 900 000 ms ahead. -/
theorem resetInMinutesOf_spec (r n : Int) :
    (r * 1000 ≤ n → resetInMinutesOf r n = 0) ∧
    (0 < r * 1000 - n → r * 1000 - n ≤ 900000 →
      0 < resetInMinutesOf r n ∧ resetInMinutesOf r n ≤ 15) := by
  unfold resetInMinutesOf ceilDivInt
  rw [Int.max_def]
  split <;> omega

/-- A successful extraction's `resetInMinutes` is literally
`resetInMinutesOf reset nowMs`. -/
theorem extractRateLimitInfo_resetInMinutes (err : JSVal) (nowMs : Int)
    (info : RateLimitInfo) (h : extractRateLimitInfo err nowMs = some info) :
    info.resetInMinutes = resetInMinutesOf info.reset nowMs := by
  unfold extractRateLimitInfo at h
  repeat' split at h
  all_goals simp_all
  subst h
  rfl

/-- **C4**: for every error carrying rate-limit metadata, the extracted
`resetInMinutes` equals `max(0, ⌈(reset·1000 − now_ms) / 60000⌉)`: never
negative, rounding up to the next whole minute, zero once the reset time has
passed; concretely, for a reset 900 s ahead of a millisecond clock reading
it lies in `(0, 15]`, and for a reset 60 s behind it is `0`. -/
theorem C4_resetInMinutes_invariant (err : JSVal) (nowMs : Int)
    (info : RateLimitInfo) (h : extractRateLimitInfo err nowMs = some info) :
    info.resetInMinutes = max 0 ⌈(((info.reset * 1000 - nowMs : Int)) : ℚ) / 60000⌉ ∧
    0 ≤ info.resetInMinutes ∧
    (info.reset * 1000 ≤ nowMs → info.resetInMinutes = 0) ∧
    (∀ nowSec : Int, nowSec * 1000 ≤ nowMs → nowMs < (nowSec + 1) * 1000 →
      (info.reset = nowSec + 900 → 0 < info.resetInMinutes ∧ info.resetInMinutes ≤ 15) ∧
      (info.reset = nowSec - 60 → info.resetInMinutes = 0)) := by
  have hm := extractRateLimitInfo_resetInMinutes err nowMs info h
  have hspec := resetInMinutesOf_spec info.reset nowMs
  have hceil : resetInMinutesOf info.reset nowMs
      = max 0 ⌈(((info.reset * 1000 - nowMs : Int)) : ℚ) / 60000⌉ := by
    unfold resetInMinutesOf
    rw [show ((60000 : Int)) = ((60000 : Nat) : Int) from rfl,
        ceilDivInt_eq_ceil (info.reset * 1000 - nowMs) 60000]
    norm_num
  refine ⟨hm.trans hceil, ?_, ?_, ?_⟩
  · rw [hm]; exact le_max_left 0 _
  · intro hle; rw [hm]; exact hspec.1 hle
  · intro nowSec h1 h2
    constructor
    · intro hr
      rw [hm]
      exact hspec.2 (by omega) (by omega)
    · intro hr
      rw [hm]
      exact hspec.1 (by omega)

/-- Witness for C4 at a concrete metadata-carrying error: `code: 429`,
`rateLimit: {limit: 50, remaining: 0, reset: 900}` against `now_ms = 0`. -/
theorem C4_witness :
    extractRateLimitInfo
        (JSVal.object [("code", JSVal.number 429),
          ("rateLimit", JSVal.object [("limit", JSVal.number 50),
            ("remaining", JSVal.number 0), ("reset", JSVal.number 900)])]) 0
      = some { limit := 50, remaining := 0, reset := 900,
               resetAt := isoTimestamp 900000, resetInMinutes := 15 } ∧
    (0 : Int) <
      (RateLimitInfo.mk 50 0 900 (isoTimestamp 900000) 15).resetInMinutes ∧
    (RateLimitInfo.mk 50 0 900 (isoTimestamp 900000) 15).resetInMinutes ≤ 15 :=
  ⟨by decide,
   ((C4_resetInMinutes_invariant
       (JSVal.object [("code", JSVal.number 429),
         ("rateLimit", JSVal.object [("limit", JSVal.number 50),
           ("remaining", JSVal.number 0), ("reset", JSVal.number 900)])]) 0
       { limit := 50, remaining := 0, reset := 900,
         resetAt := isoTimestamp 900000, resetInMinutes := 15 }
       (by decide)).2.2.2 0 (by decide) (by decide)).1 (by decide)⟩

/-- **C1**: the claim fails on the code.  `handleError` only reaches its
`"An unexpected error occurred"` fallback for an object whose `message`
field is present but not a string; an object with **no** `message` field
falls through to the final `else` and is stringified with `String(error)`.
At the failing input `{code: "ERR_001", detail: "Something went wrong"}`
the sanitised message is `"[object Object]"`, not the fixed fallback the
claim (and the spec's hardening mandate) require. -/
theorem C1_messageless_object_is_stringified :
    (∀ rnd : RandBytes,
      (handleError rnd (JSVal.object
        [("code", JSVal.string "ERR_001"),
         ("detail", JSVal.string "Something went wrong")])).message
        = "[object Object]") ∧
    "[object Object]" ≠ "An unexpected error occurred" ∧
    handleErrorMessage (JSVal.object [("message", JSVal.number 500)])
      = "An unexpected error occurred" :=
  ⟨fun _ => rfl, by decide, rfl⟩

/-- **C3 counterexample**: a value with `rateLimitError === true` but no
numeric `code` field is *not* classified as a rate-limit error (the
`isTwitterApiError` guard runs first), contradicting the claim's
"`err.rateLimitError === true` implies `true`". -/
theorem C3_counterexample :
    isRateLimitError (JSVal.object [("rateLimitError", JSVal.boolean true)]) = false :=
  rfl

/-- **C3 (amended)**: `isRateLimitError` returns `true` exactly for a
non-null plain object that carries a **number-typed `code` field** and, in
addition, either has `rateLimitError === true` or has `code === 429`; every
other value (plain `Error`, string, number, `null`, `undefined`, object
without a numeric `code` — even one with `rateLimitError: true`) yields
`false`. -/
theorem C3_isRateLimitError_characterisation (v : JSVal) :
    isRateLimitError v = true ↔
      (isTwitterApiError v = true ∧
        (v.getField "rateLimitError" = some (JSVal.boolean true) ∨
         v.getField "code" = some (JSVal.number 429))) := by
  unfold isRateLimitError
  by_cases hguard : isTwitterApiError v
  · simp only [hguard, if_true, true_and]
    constructor
    · intro h
      split at h
      · rename_i heq
        exact Or.inl heq
      · split at h
        · rename_i n heq
          simp only [beq_iff_eq] at h
          exact Or.inr (h ▸ heq)
        · exact absurd h (by simp)
    · intro h
      rcases h with h | h
      · rw [h]
      · split
        · rfl
        · rw [h]
          simp
  · simp [hguard]

/-- Witness for the amended C3 at `{code: 429, message: "Too many"}`. -/
theorem C3_witness :
    isRateLimitError (JSVal.object
      [("code", JSVal.number 429), ("message", JSVal.string "Too many")]) = true :=
  (C3_isRateLimitError_characterisation
    (JSVal.object
      [("code", JSVal.number 429), ("message", JSVal.string "Too many")])).mpr
    ⟨rfl, Or.inr rfl⟩

/-- **C2 counterexample**: the builder uses `customMessage || default`, so a
*supplied but empty* prefix does not become the envelope's `error` (the
claim, following the spec's `??`, says the prefix is used whenever
supplied): with a rate-limit error and prefix `""` the envelope's `error`
is the default text, not `""`. -/
theorem C2_counterexample :
    isRateLimitError (JSVal.object [("code", JSVal.number 429)]) = true ∧
    (createErrorResponseData ⟨0, 1, 171, 255⟩ 0
        (JSVal.object [("code", JSVal.number 429)]) (some "")).error
      = "Twitter API rate limit reached" ∧
    "Twitter API rate limit reached" ≠ "" := by
  refine ⟨rfl, rfl, by decide⟩

/-- **C2 (amended)**: for a rate-limit-classified error the envelope has
`error_type = "RATE_LIMIT_EXCEEDED"`; `error` is the custom prefix when one
is supplied *and non-empty* (`||`, not `??`) and the default
`"Twitter API rate limit reached"` otherwise; `details.original_error` is
the sanitised message; when metadata extracts, `details.rate_limit` carries
`{limit, remaining, reset_at, reset_in_minutes}` and `details.message` is
`"Please retry in N minute(s)."` for a positive `reset_in_minutes` and
`"Rate limit resets momentarily"` otherwise; when no metadata extracts,
both `details.rate_limit` and `details.message` are absent. -/
theorem C2_rate_limit_envelope (rnd : RandBytes) (nowMs : Int) (err : JSVal)
    (cm : Option String) (h : isRateLimitError err = true) :
    let env := createErrorResponseData rnd nowMs err cm
    env.error_type = some "RATE_LIMIT_EXCEEDED" ∧
    env.error = (match cm with
                 | some p => if p = "" then "Twitter API rate limit reached" else p
                 | none => "Twitter API rate limit reached") ∧
    ∃ d, env.details = some d ∧
      d.original_error = (handleError rnd err).message ∧
      (∀ i, extractRateLimitInfo err nowMs = some i →
        d.rate_limit = some { limit := i.limit, remaining := i.remaining,
                              reset_at := i.resetAt,
                              reset_in_minutes := i.resetInMinutes } ∧
        d.message = some (if 0 < i.resetInMinutes then
            "Please retry in " ++ toString i.resetInMinutes ++ " minute(s)."
          else "Rate limit resets momentarily")) ∧
      (extractRateLimitInfo err nowMs = none →
        d.rate_limit = none ∧ d.message = none) := by
  unfold createErrorResponseData rateLimitResponseData
  rw [if_pos h]
  refine ⟨rfl, rfl, _, rfl, rfl, ?_, ?_⟩
  · intro i hi
    simp [hi]
  · intro hnone
    simp [hnone]

/-- Witness for the amended C2: full metadata
(`limit 50, remaining 0, reset 900`, `now_ms = 0`) and the prefix
`"Failed to post tweet"`. -/
theorem C2_witness :
    (createErrorResponseData ⟨0, 1, 171, 255⟩ 0
        (JSVal.object [("code", JSVal.number 429),
          ("message", JSVal.string "Rate limit exceeded"),
          ("rateLimit", JSVal.object [("limit", JSVal.number 50),
            ("remaining", JSVal.number 0), ("reset", JSVal.number 900)])])
        (some "Failed to post tweet")).error_type = some "RATE_LIMIT_EXCEEDED" ∧
    (createErrorResponseData ⟨0, 1, 171, 255⟩ 0
        (JSVal.object [("code", JSVal.number 429),
          ("message", JSVal.string "Rate limit exceeded"),
          ("rateLimit", JSVal.object [("limit", JSVal.number 50),
            ("remaining", JSVal.number 0), ("reset", JSVal.number 900)])])
        (some "Failed to post tweet")).error = "Failed to post tweet" :=
  ⟨(C2_rate_limit_envelope ⟨0, 1, 171, 255⟩ 0
      (JSVal.object [("code", JSVal.number 429),
        ("message", JSVal.string "Rate limit exceeded"),
        ("rateLimit", JSVal.object [("limit", JSVal.number 50),
          ("remaining", JSVal.number 0), ("reset", JSVal.number 900)])])
      (some "Failed to post tweet") rfl).1,
   ((C2_rate_limit_envelope ⟨0, 1, 171, 255⟩ 0
      (JSVal.object [("code", JSVal.number 429),
        ("message", JSVal.string "Rate limit exceeded"),
        ("rateLimit", JSVal.object [("limit", JSVal.number 50),
          ("remaining", JSVal.number 0), ("reset", JSVal.number 900)])])
      (some "Failed to post tweet") rfl).2.1).trans (by decide)⟩

/-- **C10**: every envelope `createErrorResponse` serialises — rate-limit
ones included — carries `error_id` equal to the freshly drawn
`generateErrorId`, an 8-character lower-case-hexadecimal token (freshness
itself is the randomness of the byte source, outside the embedding). -/
theorem C10_error_id_in_every_envelope (rnd : RandBytes) (nowMs : Int)
    (err : JSVal) (cm : Option String) :
    (createErrorResponseData rnd nowMs err cm).error_id = generateErrorId rnd ∧
    (generateErrorId rnd).length = 8 ∧
    ∀ c ∈ (generateErrorId rnd).data, isLowerHex c = true := by
  refine ⟨?_, ?_, ?_⟩
  · unfold createErrorResponseData rateLimitResponseData
    split <;> rfl
  · simp [generateErrorId, byteHex, String.length]
  · have hhex : ∀ k : Fin 16, isLowerHex (hexDigitChar k.val) = true := by decide
    have hb : ∀ b : Fin 256, ∀ c ∈ byteHex b, isLowerHex c = true := by
      intro b c hc
      simp only [byteHex, List.mem_cons, List.mem_singleton] at hc
      rcases hc with h | h | h
      · exact h ▸ hhex ⟨b.val / 16, by omega⟩
      · exact h ▸ hhex ⟨b.val % 16, by omega⟩
      · cases h
    intro c hc
    simp only [generateErrorId, List.mem_append] at hc
    rcases hc with ((h | h) | h) | h
    · exact hb rnd.b0 c h
    · exact hb rnd.b1 c h
    · exact hb rnd.b2 c h
    · exact hb rnd.b3 c h

/-- **C5**: each count-taking tool passes
`max_results = min(count, 100)` with `count` defaulted to 10: supplied
positive `c` yields `min c 100`, an omitted count yields 10.  (For the
user-tweets tool the clamped value is the one handed to the timeline call
once the handle resolves.) -/
theorem C5_effective_max_results (client : ApiClient) (rnd : RandBytes)
    (nowMs : Int) (q u : String) (cnt : Option Int) :
    (SearchTweetsTool.execute client rnd nowMs q cnt).2
      = [ApiCall.search q (effectiveMaxResults cnt)] ∧
    (GetHomeTimelineTool.execute client rnd nowMs cnt).2
      = [ApiCall.homeTimeline (effectiveMaxResults cnt)] ∧
    (∀ user, client.userByUsername u = Except.ok (some user) →
      (GetUserTweetsTool.execute client rnd nowMs u cnt).2
        = [ApiCall.userByUsername u,
           ApiCall.userTimeline user.id (effectiveMaxResults cnt)]) ∧
    (∀ c : Int, cnt = some c → 0 < c → effectiveMaxResults cnt = min c 100) ∧
    (cnt = none → effectiveMaxResults cnt = 10) := by
  refine ⟨?_, ?_, ?_, ?_, ?_⟩
  · cases h : client.search q (min (cnt.getD 10) 100) <;>
      simp [SearchTweetsTool.execute, h, effectiveMaxResults]
  · cases h : client.homeTimeline (min (cnt.getD 10) 100) <;>
      simp [GetHomeTimelineTool.execute, h, effectiveMaxResults]
  · intro user huser
    cases h : client.userTimeline user.id (min (cnt.getD 10) 100) <;>
      simp [GetUserTweetsTool.execute, huser, h, effectiveMaxResults]
  · intro c hc _
    simp [hc, effectiveMaxResults]
  · intro hc
    simp [hc, effectiveMaxResults]

/-- Witness for C5 against `stubClient`, with `count = 250` (clamped to
100) for the search call and omitted for the timeline call. -/
theorem C5_witness :
    (SearchTweetsTool.execute stubClient rndA 0 "lean" (some 250)).2
      = [ApiCall.search "lean" 100] ∧
    (GetHomeTimelineTool.execute stubClient rndA 0 none).2
      = [ApiCall.homeTimeline 10] ∧
    (GetUserTweetsTool.execute stubClient rndA 0 "bob" (some 7)).2
      = [ApiCall.userByUsername "bob", ApiCall.userTimeline "42" 7] :=
  ⟨(C5_effective_max_results stubClient rndA 0 "lean" "bob" (some 250)).1,
   (C5_effective_max_results stubClient rndA 0 "lean" "bob" none).2.1,
   (C5_effective_max_results stubClient rndA 0 "lean" "bob" (some 7)).2.2.1
     { id := "42", username := "bob" } rfl⟩

/-- **C6 counterexample**: the search tool's declared `count` schema is
plain `z.number().optional()`, so a supplied `count = 0` passes validation
— it is *not* rejected — and `execute` is entered, issuing the capability
call with `max_results = min(0, 100) = 0`. -/
theorem C6_counterexample :
    searchCountSchema.accepts 0 = true ∧
    (SearchTweetsTool.execute stubClient rndA 0 "q" (some 0)).2
      = [ApiCall.search "q" 0] :=
  ⟨rfl, rfl⟩

/-- **C6 (amended)**: only the home-timeline tool's schema
(`z.number().int().min(1).max(100)`) rejects a non-positive count; the
search and user-tweets schemas (`z.number()`) accept every integer, so for
those tools `execute` *is* entered with a non-positive count and passes it
through as `min(c, 100)` — still never clamped upward. -/
theorem C6_schema_bounds (c : Int) :
    (homeTimelineCountSchema.accepts c = true ↔ 1 ≤ c ∧ c ≤ 100) ∧
    searchCountSchema.accepts c = true ∧
    userTweetsCountSchema.accepts c = true ∧
    (∀ client rnd nowMs q, (SearchTweetsTool.execute client rnd nowMs q (some c)).2
      = [ApiCall.search q (min c 100)]) ∧
    (c ≤ 0 → min c 100 ≤ 0) := by
  refine ⟨?_, rfl, rfl, ?_, ?_⟩
  · simp [homeTimelineCountSchema, CountSchema.accepts]
  · intro client rnd nowMs q
    cases h : client.search q (min c 100) <;>
      simp [SearchTweetsTool.execute, h]
  · intro h
    simp
    omega

/-- Witness for the amended C6 at `c = 0`: the bounded schema rejects it,
the unbounded ones accept it. -/
theorem C6_witness :
    homeTimelineCountSchema.accepts 0 = false ∧
    searchCountSchema.accepts 0 = true ∧
    userTweetsCountSchema.accepts 0 = true :=
  ⟨by
    cases hb : homeTimelineCountSchema.accepts 0 with
    | false => rfl
    | true => exact absurd ((C6_schema_bounds 0).1.mp hb) (by omega),
   (C6_schema_bounds 0).2.1,
   (C6_schema_bounds 0).2.2.1⟩

/-- **C7**: supplying both an image path and a video path (truthy, i.e.
non-empty, as the source's `if (image_path && video_path)` tests) makes the
media-capable post tool fail *before any client call*: the recorded trace
is empty — no upload, no publish — and the failure envelope's message
carries `"Cannot attach both image and video"` inside the tool's prefixed
error text. -/
theorem C7_both_attachments_rejected_before_calls (client : ApiClient)
    (rnd : RandBytes) (nowMs : Int) (text ip vp : String)
    (hip : ip ≠ "") (hvp : vp ≠ "") :
    PostTweetMediaTool.execute client rnd nowMs text (some ip) (some vp)
      = (createErrorResponse rnd nowMs
          (JSVal.errorInst
            "Cannot attach both image and video to the same tweet. Please provide only one.")
          (some "Failed to post tweet"), []) ∧
    (PostTweetMediaTool.execute client rnd nowMs text (some ip) (some vp)).2 = [] ∧
    (createErrorResponseData rnd nowMs
        (JSVal.errorInst
          "Cannot attach both image and video to the same tweet. Please provide only one.")
        (some "Failed to post tweet")).error
      = "Failed to post tweet: " ++ "Cannot attach both image and video"
          ++ " to the same tweet. Please provide only one." := by
  have hexec : PostTweetMediaTool.execute client rnd nowMs text (some ip) (some vp)
      = (createErrorResponse rnd nowMs
          (JSVal.errorInst
            "Cannot attach both image and video to the same tweet. Please provide only one.")
          (some "Failed to post tweet"), []) := by
    unfold PostTweetMediaTool.execute
    rw [if_pos]
    simp [optStringTruthy, hip, hvp]
  refine ⟨hexec, by rw [hexec], ?_⟩
  rfl

/-- Witness for C7: `stubClient`, both paths supplied. -/
theorem C7_witness :
    (PostTweetMediaTool.execute stubClient rndA 0 "hello"
        (some "/tmp/a.png") (some "/tmp/b.mp4")).2 = [] :=
  (C7_both_attachments_rejected_before_calls stubClient rndA 0 "hello"
    "/tmp/a.png" "/tmp/b.mp4" (by decide) (by decide)).2.1

/-- **C8**: the like and retweet tools resolve the authenticated identity
(`v2.me()`) strictly before the action call, which receives the resolved id
and the target tweet id; when identity resolution rejects, the trace stops
at `me` — the action call is never issued. -/
theorem C8_identity_resolved_before_action (client : ApiClient)
    (rnd : RandBytes) (nowMs : Int) (tid : String) :
    ((∃ e, client.me = Except.error e) →
      (LikeTweetTool.execute client rnd nowMs tid).2 = [ApiCall.me] ∧
      (RetweetTool.execute client rnd nowMs tid).2 = [ApiCall.me]) ∧
    (∀ u, client.me = Except.ok u →
      (LikeTweetTool.execute client rnd nowMs tid).2
        = [ApiCall.me, ApiCall.like u.id tid] ∧
      (RetweetTool.execute client rnd nowMs tid).2
        = [ApiCall.me, ApiCall.retweet u.id tid]) := by
  constructor
  · rintro ⟨e, he⟩
    constructor <;> simp [LikeTweetTool.execute, RetweetTool.execute, he]
  · intro u hu
    constructor
    · cases h : client.like u.id tid <;>
        simp [LikeTweetTool.execute, hu, h]
    · cases h : client.retweet u.id tid <;>
        simp [RetweetTool.execute, hu, h]

/-- Witness for C8: a client whose `v2.me()` rejects (no action call) and
`stubClient` (action call after `me`, with the resolved id `"7"`). -/
theorem C8_witness :
    (LikeTweetTool.execute meFailsClient rndA 0 "99").2 = [ApiCall.me] ∧
    (RetweetTool.execute meFailsClient rndA 0 "99").2 = [ApiCall.me] ∧
    (LikeTweetTool.execute stubClient rndA 0 "99").2
      = [ApiCall.me, ApiCall.like "7" "99"] :=
  ⟨((C8_identity_resolved_before_action meFailsClient rndA 0 "99").1
      ⟨JSVal.errorInst "boom", rfl⟩).1,
   ((C8_identity_resolved_before_action meFailsClient rndA 0 "99").1
      ⟨JSVal.errorInst "boom", rfl⟩).2,
   ((C8_identity_resolved_before_action stubClient rndA 0 "99").2
      { id := "7", username := "me" } rfl).1⟩

namespace Json

/-- Dropping whitespace ignores a leading all-whitespace chunk. -/
theorem dropWs_allWs_append (ws x : List Char) (h : allWs ws = true) :
    dropWs (ws ++ x) = dropWs x := by
  induction ws with
  | nil => rfl
  | cons c cs ih =>
      simp only [allWs, List.all_cons, Bool.and_eq_true] at h
      simp only [List.cons_append, dropWs, h.1, if_true]
      exact ih (by simpa [allWs] using h.2)

/-- Dropping whitespace is the identity on a non-whitespace head. -/
theorem dropWs_stop (c : Char) (x : List Char) (h : isJsonWs c = false) :
    dropWs (c :: x) = c :: x := by
  simp [dropWs, h]

/-- A pretty-printed line break is all whitespace. -/
theorem allWs_lineBreak (w : Nat) : allWs (lineBreak w) = true := by
  simp only [lineBreak, allWs, List.all_cons, Bool.and_eq_true]
  refine ⟨rfl, ?_⟩
  simp only [List.all_eq_true]
  intro c hc
  rw [List.eq_of_mem_replicate hc]
  rfl

/-- A line break followed by anything drops to that thing's own drop. -/
theorem dropWs_lineBreak (w : Nat) (x : List Char) :
    dropWs (lineBreak w ++ x) = dropWs x :=
  dropWs_allWs_append _ x (allWs_lineBreak w)

/-- `natChars` below ten: one digit. -/
theorem natChars_lt (n : Nat) (t : List Char) (h : n < 10) :
    natChars n t = Char.ofNat ('0'.toNat + n) :: t := by
  rw [natChars]
  simp [h]

/-- `natChars` from ten: recurse on the quotient, last digit first onto the
accumulator. -/
theorem natChars_ge (n : Nat) (t : List Char) (h : ¬ n < 10) :
    natChars n t = natChars (n / 10) (Char.ofNat ('0'.toNat + n % 10) :: t) := by
  rw [natChars]
  simp [h]

/-- The accumulator argument of `natChars` is mere suffix bookkeeping. -/
theorem natChars_tail (n : Nat) : ∀ t : List Char,
    natChars n t = natChars n [] ++ t := by
  induction n using Nat.strongRecOn with
  | ind n ih =>
    intro t
    by_cases h : n < 10
    · rw [natChars_lt n t h, natChars_lt n [] h]
      rfl
    · rw [natChars_ge n t h, natChars_ge n [] h,
          ih (n / 10) (Nat.div_lt_self (by omega) (by omega))
            (Char.ofNat ('0'.toNat + n % 10) :: t),
          ih (n / 10) (Nat.div_lt_self (by omega) (by omega))
            [Char.ofNat ('0'.toNat + n % 10)]]
      simp

/-- The character of digit `k` is a digit character carrying value `k`. -/
theorem digit_char_spec : ∀ k : Fin 10,
    isDigitChar (Char.ofNat ('0'.toNat + k.val)) = true ∧
    (Char.ofNat ('0'.toNat + k.val)).toNat - '0'.toNat = k.val := by decide

/-- One last-digit-first unfolding of a digit run. -/
theorem natChars_split (n : Nat) :
    natChars n [] = (if n < 10 then [] else natChars (n / 10) [])
      ++ [Char.ofNat ('0'.toNat + n % 10)] := by
  by_cases h : n < 10
  · rw [natChars_lt n [] h]
    simp [h, Nat.mod_eq_of_lt]
  · rw [natChars_ge n [] h, natChars_tail]
    simp [h]

/-- A digit run is never empty. -/
theorem natChars_ne_nil (n : Nat) : natChars n [] ≠ [] := by
  rw [natChars_split]
  simp

/-- Every character of a digit run is a digit. -/
theorem natChars_all_digits (n : Nat) :
    ∀ c ∈ natChars n [], isDigitChar c = true := by
  induction n using Nat.strongRecOn with
  | ind n ih =>
    intro c hc
    rw [natChars_split] at hc
    rcases List.mem_append.mp hc with h | h
    · by_cases h10 : n < 10
      · simp [h10] at h
      · exact ih (n / 10) (Nat.div_lt_self (by omega) (by omega)) c (by simpa [h10] using h)
    · rw [List.mem_singleton.mp h]
      exact (digit_char_spec ⟨n % 10, Nat.mod_lt _ (by omega)⟩).1

/-- A digit run starts with a digit. -/
theorem natChars_head (n : Nat) :
    ∃ c t, natChars n [] = c :: t ∧ isDigitChar c = true := by
  rcases h : natChars n [] with _ | ⟨c, t⟩
  · exact absurd h (natChars_ne_nil n)
  · exact ⟨c, t, rfl, natChars_all_digits n c (h ▸ List.mem_cons_self c t)⟩

/-- Folding the digits of `n` back into a number recovers `n`. -/
theorem digitsVal_natChars (n : Nat) : digitsVal (natChars n []) = n := by
  induction n using Nat.strongRecOn with
  | ind n ih =>
    rw [natChars_split]
    unfold digitsVal
    rw [List.foldl_append]
    by_cases h : n < 10
    · simp only [if_pos h, List.foldl_nil, List.foldl_cons]
      have := (digit_char_spec ⟨n % 10, Nat.mod_lt _ (by omega)⟩).2
      simp only at this
      omega
    · simp only [if_neg h, List.foldl_cons, List.foldl_nil]
      have hrec := ih (n / 10) (Nat.div_lt_self (by omega) (by omega))
      unfold digitsVal at hrec
      rw [hrec]
      have := (digit_char_spec ⟨n % 10, Nat.mod_lt _ (by omega)⟩).2
      simp only at this
      omega

/-- `grabDigits` takes nothing from a `safeTail` position. -/
theorem grabDigits_halt (cs : List Char) (h : safeTail cs = true) :
    grabDigits cs = ([], cs) := by
  cases cs with
  | nil => rfl
  | cons c t =>
      simp only [safeTail, Bool.not_eq_true'] at h
      simp [grabDigits, h]

/-- `grabDigits` takes exactly a leading digit run, stopping at a
`safeTail`. -/
theorem grabDigits_run (ds : List Char) (hds : ∀ c ∈ ds, isDigitChar c = true)
    (rest : List Char) (hrest : safeTail rest = true) :
    grabDigits (ds ++ rest) = (ds, rest) := by
  induction ds with
  | nil => simpa using grabDigits_halt rest hrest
  | cons c t ih =>
      have hc : isDigitChar c = true := hds c (List.mem_cons_self c t)
      have ht := ih fun x hx => hds x (List.mem_cons_of_mem c hx)
      simp [grabDigits, hc, ht]

/-- A digit character is not whitespace and is none of the structural
characters the parser branches on. -/
theorem digit_char_not_structural (c : Char) (h : isDigitChar c = true) :
    isJsonWs c = false ∧ c ≠ 't' ∧ c ≠ 'f' ∧ c ≠ '"' ∧ c ≠ '[' ∧ c ≠ '{' ∧
    c ≠ ']' ∧ c ≠ '}' ∧ c ≠ ',' := by
  refine ⟨?_, ?_, ?_, ?_, ?_, ?_, ?_, ?_, ?_⟩
  · simp only [isJsonWs, Bool.or_eq_false_iff, decide_eq_false_iff_not]
    refine ⟨⟨⟨?_, ?_⟩, ?_⟩, ?_⟩ <;> (intro he; subst he; exact absurd h (by decide))
  all_goals (intro he; subst he; exact absurd h (by decide))

/-- Every hexadecimal digit character decodes to its value. -/
theorem hexCharVal_hexDigitChar : ∀ k : Fin 16,
    hexCharVal (hexDigitChar k.val) = some k.val := by decide

/-- Scanning one serialised (escaped) character prepends precisely that
character to the accumulator. -/
theorem scanString_shift (c : Char) (acc t : List Char) :
    scanString acc (quoteChar c ++ t) = scanString (c :: acc) t := by
  by_cases h1 : c = '"'
  · subst h1; rfl
  by_cases h2 : c = '\\'
  · subst h2; rfl
  by_cases h3 : c = Char.ofNat 8
  · subst h3; rfl
  by_cases h4 : c = Char.ofNat 12
  · subst h4; rfl
  by_cases h5 : c = '\n'
  · subst h5; rfl
  by_cases h6 : c = '\r'
  · subst h6; rfl
  by_cases h7 : c = '\t'
  · subst h7; rfl
  unfold quoteChar
  rw [if_neg h1, if_neg h2, if_neg h3, if_neg h4, if_neg h5, if_neg h6, if_neg h7]
  by_cases hlt : c.toNat < 32
  · rw [if_pos hlt]
    simp only [fourHex, List.cons_append, List.nil_append]
    have h16 : ∀ m : Nat, m % 16 < 16 := fun m => Nat.mod_lt _ (by omega)
    rw [scanString,
        hexCharVal_hexDigitChar ⟨c.toNat / 4096 % 16, h16 _⟩,
        hexCharVal_hexDigitChar ⟨c.toNat / 256 % 16, h16 _⟩,
        hexCharVal_hexDigitChar ⟨c.toNat / 16 % 16, h16 _⟩,
        hexCharVal_hexDigitChar ⟨c.toNat % 16, h16 _⟩]
    simp only
    have harith : ((c.toNat / 4096 % 16 * 16 + c.toNat / 256 % 16) * 16
        + c.toNat / 16 % 16) * 16 + c.toNat % 16 = c.toNat := by
      omega
    rw [harith, Char.ofNat_toNat]
  · rw [if_neg hlt]
    simp only [List.singleton_append]
    rw [scanString.eq_def]
    simp [h1, h2]

/-- Scanning a fully escaped character list stops exactly at the closing
quote, returning the original characters after the accumulator. -/
theorem scanString_flat (cs : List Char) : ∀ acc rest : List Char,
    scanString acc (cs.flatMap quoteChar ++ '"' :: rest)
      = some (⟨acc.reverse ++ cs⟩, rest) := by
  induction cs with
  | nil =>
      intro acc rest
      simp [scanString]
  | cons c cs ih =>
      intro acc rest
      rw [List.flatMap_cons, List.append_assoc, scanString_shift, ih]
      simp

/-- Parsing the body of a serialised string literal recovers the string. -/
theorem strLit_scan (s : String) (rest : List Char) :
    scanString [] (s.data.flatMap quoteChar ++ '"' :: rest) = some (s, rest) := by
  rw [scanString_flat]
  simp

/-- Every serialised value starts with a visible character that closes
nothing: not whitespace, not `]`, `}` or `,`. -/
theorem emitVal_starts (w : Nat) (j : Json) :
    ∃ c t, emitVal w j = c :: t ∧ isJsonWs c = false ∧ c ≠ ']' ∧ c ≠ '}' ∧
      c ≠ ',' := by
  cases j with
  | bool b => cases b with
      | true => exact ⟨'t', _, rfl, by decide, by decide, by decide, by decide⟩
      | false => exact ⟨'f', _, rfl, by decide, by decide, by decide, by decide⟩
  | num n =>
      obtain ⟨c, t, hc, hd⟩ := natChars_head n
      obtain ⟨hws, _, _, _, _, _, h1, h2, h3⟩ := digit_char_not_structural c hd
      exact ⟨c, t, by simpa [emitVal] using hc, hws, h1, h2, h3⟩
  | str s => exact ⟨'"', _, rfl, by decide, by decide, by decide, by decide⟩
  | arr items => cases items with
      | nil => exact ⟨'[', _, rfl, by decide, by decide, by decide, by decide⟩
      | cons x xs => exact ⟨'[', _, rfl, by decide, by decide, by decide, by decide⟩
  | obj members => cases members with
      | nil => exact ⟨'{', _, rfl, by decide, by decide, by decide, by decide⟩
      | cons m ms => exact ⟨'{', _, rfl, by decide, by decide, by decide, by decide⟩

/-- At successor fuel, on input headed by a visible character that starts
no keyword, string, array or object, the parser takes the number branch. -/
theorem jparseVal_step_other (f : Nat) (c : Char) (t : List Char)
    (hws : isJsonWs c = false) (ht : c ≠ 't') (hf : c ≠ 'f') (hq : c ≠ '"')
    (hbk : c ≠ '[') (hbc : c ≠ '{') :
    jparseVal (f + 1) (c :: t)
      = if isDigitChar c then
          some (Json.num (digitsVal (grabDigits (c :: t)).1), (grabDigits (c :: t)).2)
        else none := by
  rw [jparseVal]
  rw [dropWs_stop c t hws]
  simp [ht, hf, hq, hbk, hbc]

/-- Successor-fuel parsers only see the input through `dropWs`. -/
theorem jparseVal_eq_of_dropWs (f : Nat) (cs cs' : List Char)
    (h : dropWs cs = dropWs cs') :
    jparseVal (f + 1) cs = jparseVal (f + 1) cs' := by
  rw [jparseVal, jparseVal, h]

/-- One-step unfolding of the array branch. -/
theorem jparseVal_step_arr (f : Nat) (rest : List Char) :
    jparseVal (f + 1) ('[' :: rest)
      = (match dropWs rest with
         | c :: rest' =>
             if c = ']' then some (Json.arr [], rest')
             else
               (match jparseItems f (c :: rest') with
                | some (items, rest'') => some (Json.arr items, rest'')
                | none => none)
         | [] => none) := by
  rw [jparseVal, dropWs_stop _ _ (by decide)]
  simp

/-- One-step unfolding of the object branch. -/
theorem jparseVal_step_obj (f : Nat) (rest : List Char) :
    jparseVal (f + 1) ('{' :: rest)
      = (match dropWs rest with
         | c :: rest' =>
             if c = '}' then some (Json.obj [], rest')
             else
               (match jparseMembers f (c :: rest') with
                | some (members, rest'') => some (Json.obj members, rest'')
                | none => none)
         | [] => none) := by
  rw [jparseVal, dropWs_stop _ _ (by decide)]
  simp

/-- One-step unfolding of the string branch. -/
theorem jparseVal_step_str (f : Nat) (rest : List Char) :
    jparseVal (f + 1) ('"' :: rest)
      = (match scanString [] rest with
         | some (s, rest') => some (Json.str s, rest')
         | none => none) := by
  rw [jparseVal, dropWs_stop _ _ (by decide)]
  simp

/-- One-step unfolding of `jparseItems`. -/
theorem jparseItems_succ (f : Nat) (cs : List Char) :
    jparseItems (f + 1) cs
      = (match jparseVal f cs with
         | none => none
         | some (v, rest) =>
             match dropWs rest with
             | c :: rest' =>
                 if c = ',' then
                   (match jparseItems f rest' with
                    | some (vs, rest'') => some (v :: vs, rest'')
                    | none => none)
                 else if c = ']' then some ([v], rest')
                 else none
             | [] => none) := rfl

/-- One-step unfolding of `jparseMembers`. -/
theorem jparseMembers_succ (f : Nat) (cs : List Char) :
    jparseMembers (f + 1) cs
      = (match dropWs cs with
         | '"' :: rest =>
             (match scanString [] rest with
              | none => none
              | some (key, rest1) =>
                  match dropWs rest1 with
                  | ':' :: rest2 =>
                      (match jparseVal f rest2 with
                       | none => none
                       | some (v, rest3) =>
                           match dropWs rest3 with
                           | c :: rest4 =>
                               if c = ',' then
                                 (match jparseMembers f rest4 with
                                  | some (ms, rest5) => some ((key, v) :: ms, rest5)
                                  | none => none)
                               else if c = '}' then some ([(key, v)], rest4)
                               else none
                           | [] => none)
                  | _ => none)
         | _ => none) := rfl

mutual
/-- Parsing a serialised value after any leading whitespace consumes exactly
the serialised characters and returns the value, provided the remainder
cannot extend a number. -/
theorem consumeVal : ∀ (j : Json) (w fuel : Nat) (ws rest : List Char),
    allWs ws = true → (emitVal w j).length < fuel → safeTail rest = true →
    jparseVal fuel (ws ++ (emitVal w j ++ rest)) = some (j, rest)
  | Json.bool b, w, fuel, ws, rest, hws, hfuel, _ => by
      cases fuel with
      | zero => exact absurd hfuel (by omega)
      | succ f =>
          rw [jparseVal_eq_of_dropWs f _ _ (dropWs_allWs_append ws _ hws)]
          cases b
          · rw [show emitVal w (Json.bool false) ++ rest
                  = 'f' :: 'a' :: 'l' :: 's' :: 'e' :: rest from rfl]
            rw [jparseVal, dropWs_stop _ _ (by decide)]
            simp
          · rw [show emitVal w (Json.bool true) ++ rest
                  = 't' :: 'r' :: 'u' :: 'e' :: rest from rfl]
            rw [jparseVal, dropWs_stop _ _ (by decide)]
            simp
  | Json.num n, w, fuel, ws, rest, hws, hfuel, hrest => by
      cases fuel with
      | zero => exact absurd hfuel (by omega)
      | succ f =>
          rw [jparseVal_eq_of_dropWs f _ _ (dropWs_allWs_append ws _ hws)]
          obtain ⟨c, t, hct, hd⟩ := natChars_head n
          obtain ⟨hcws, ht', hf', hq', hbk', hbc', -, -, -⟩ :=
            digit_char_not_structural c hd
          have hemit : emitVal w (Json.num n) ++ rest = c :: (t ++ rest) := by
            simp [emitVal, hct]
          rw [hemit, jparseVal_step_other f c (t ++ rest) hcws ht' hf' hq' hbk' hbc',
              if_pos hd]
          have hgrab : grabDigits (c :: (t ++ rest)) = (natChars n [], rest) := by
            rw [hct]
            have hr := grabDigits_run (natChars n []) (natChars_all_digits n) rest hrest
            rwa [hct, List.cons_append] at hr
          rw [hgrab]
          simp [digitsVal_natChars]
  | Json.str s, w, fuel, ws, rest, hws, hfuel, _ => by
      cases fuel with
      | zero => exact absurd hfuel (by omega)
      | succ f =>
          rw [jparseVal_eq_of_dropWs f _ _ (dropWs_allWs_append ws _ hws)]
          have hemit : emitVal w (Json.str s) ++ rest
              = '"' :: (s.data.flatMap quoteChar ++ '"' :: rest) := by
            simp [emitVal, strLit]
          rw [hemit, jparseVal_step_str, strLit_scan]
  | Json.arr [], w, fuel, ws, rest, hws, hfuel, _ => by
      cases fuel with
      | zero => exact absurd hfuel (by omega)
      | succ f =>
          rw [jparseVal_eq_of_dropWs f _ _ (dropWs_allWs_append ws _ hws)]
          rw [show emitVal w (Json.arr []) ++ rest = '[' :: (']' :: rest) from rfl]
          rw [jparseVal_step_arr, dropWs_stop _ _ (by decide)]
          simp
  | Json.arr (x :: xs), w, fuel, ws, rest, hws, hfuel, _ => by
      cases fuel with
      | zero => exact absurd hfuel (by omega)
      | succ f =>
          rw [jparseVal_eq_of_dropWs f _ _ (dropWs_allWs_append ws _ hws)]
          have hemit : emitVal w (Json.arr (x :: xs)) ++ rest
              = '[' :: (lineBreak (w + 2) ++ (emitVal (w + 2) x
                  ++ (emitMoreItems (w + 2) xs ++ (lineBreak w ++ (']' :: rest))))) := by
            simp [emitVal]
          rw [hemit, jparseVal_step_arr]
          obtain ⟨c, t, hct, hcws, hcbr, -, -⟩ := emitVal_starts (w + 2) x
          have htail : emitVal (w + 2) x
                ++ (emitMoreItems (w + 2) xs ++ (lineBreak w ++ (']' :: rest)))
              = c :: (t ++ (emitMoreItems (w + 2) xs ++ (lineBreak w ++ (']' :: rest)))) := by
            rw [hct, List.cons_append]
          rw [dropWs_lineBreak, htail, dropWs_stop _ _ hcws]
          simp only [if_neg hcbr]
          have hbound : (emitVal (w + 2) x ++ emitMoreItems (w + 2) xs).length + 1 < f := by
            simp only [emitVal, lineBreak, List.length_cons, List.length_append,
              List.length_replicate, List.length_singleton] at hfuel
            simp only [List.length_append]
            omega
          have hkey := consumeItems x xs (w + 2) w f [] rest rfl hbound
          rw [List.nil_append, htail] at hkey
          rw [hkey]
  | Json.obj [], w, fuel, ws, rest, hws, hfuel, _ => by
      cases fuel with
      | zero => exact absurd hfuel (by omega)
      | succ f =>
          rw [jparseVal_eq_of_dropWs f _ _ (dropWs_allWs_append ws _ hws)]
          rw [show emitVal w (Json.obj []) ++ rest = '{' :: ('}' :: rest) from rfl]
          rw [jparseVal_step_obj, dropWs_stop _ _ (by decide)]
          simp
  | Json.obj (m :: ms), w, fuel, ws, rest, hws, hfuel, _ => by
      cases fuel with
      | zero => exact absurd hfuel (by omega)
      | succ f =>
          rw [jparseVal_eq_of_dropWs f _ _ (dropWs_allWs_append ws _ hws)]
          have hemit : emitVal w (Json.obj (m :: ms)) ++ rest
              = '{' :: (lineBreak (w + 2) ++ (emitMember (w + 2) m
                  ++ (emitMoreMembers (w + 2) ms ++ (lineBreak w ++ ('}' :: rest))))) := by
            simp [emitVal]
          rw [hemit, jparseVal_step_obj]
          have hmem : emitMember (w + 2) m
                ++ (emitMoreMembers (w + 2) ms ++ (lineBreak w ++ ('}' :: rest)))
              = '"' :: ((m.1.data.flatMap quoteChar ++ ['"'])
                  ++ (':' :: ' ' :: emitVal (w + 2) m.2
                  ++ (emitMoreMembers (w + 2) ms ++ (lineBreak w ++ ('}' :: rest))))) := by
            obtain ⟨k, v⟩ := m
            simp [emitMember, strLit]
          rw [dropWs_lineBreak, hmem, dropWs_stop _ _ (by decide)]
          simp only [if_neg (by decide : ¬('"' = '}'))]
          have hbound : (emitMember (w + 2) m ++ emitMoreMembers (w + 2) ms).length + 1 < f := by
            simp only [emitVal, lineBreak, List.length_cons, List.length_append,
              List.length_replicate, List.length_singleton] at hfuel
            simp only [List.length_append]
            omega
          have hkey := consumeMembers m ms (w + 2) w f [] rest rfl hbound
          rw [List.nil_append, hmem] at hkey
          rw [hkey]
termination_by j _ _ _ _ _ _ _ => sizeOf j
/-- Parsing serialised array items (first item's characters already at the
head) consumes them through the closing `]`. -/
theorem consumeItems : ∀ (x : Json) (xs : List Json) (w u fuel : Nat)
    (ws rest : List Char),
    allWs ws = true →
    (emitVal w x ++ emitMoreItems w xs).length + 1 < fuel →
    jparseItems fuel
        (ws ++ (emitVal w x ++ (emitMoreItems w xs ++ (lineBreak u ++ (']' :: rest)))))
      = some (x :: xs, rest)
  | x, [], w, u, fuel, ws, rest, hws, hfuel => by
      cases fuel with
      | zero => exact absurd hfuel (by omega)
      | succ f =>
          rw [jparseItems_succ]
          have hx := consumeVal x w f ws
            (emitMoreItems w [] ++ (lineBreak u ++ (']' :: rest))) hws
            (by simp only [List.length_append] at hfuel; omega)
            (by simp [emitMoreItems, safeTail, lineBreak, isDigitChar])
          rw [hx]
          have hdrop : dropWs (emitMoreItems w [] ++ (lineBreak u ++ (']' :: rest)))
              = ']' :: rest := by
            rw [show emitMoreItems w [] ++ (lineBreak u ++ (']' :: rest))
                  = lineBreak u ++ (']' :: rest) from rfl,
                dropWs_lineBreak, dropWs_stop _ _ (by decide)]
          simp [hdrop]
  | x, y :: ys, w, u, fuel, ws, rest, hws, hfuel => by
      cases fuel with
      | zero => exact absurd hfuel (by omega)
      | succ f =>
          rw [jparseItems_succ]
          have hmore : emitMoreItems w (y :: ys)
              = ',' :: (lineBreak w ++ (emitVal w y ++ emitMoreItems w ys)) := by
            simp [emitMoreItems, List.append_assoc]
          have hx := consumeVal x w f ws
            (emitMoreItems w (y :: ys) ++ (lineBreak u ++ (']' :: rest))) hws
            (by simp only [List.length_append] at hfuel; omega)
            (by rw [hmore]; rfl)
          rw [hx]
          have hdrop : dropWs (emitMoreItems w (y :: ys) ++ (lineBreak u ++ (']' :: rest)))
              = ',' :: (lineBreak w ++ (emitVal w y ++ (emitMoreItems w ys
                  ++ (lineBreak u ++ (']' :: rest))))) := by
            rw [hmore, List.cons_append, dropWs_stop _ _ (by decide)]
            simp [List.append_assoc]
          have hbound : (emitVal w y ++ emitMoreItems w ys).length + 1 < f := by
            have hlen : (emitMoreItems w (y :: ys)).length
                = 1 + (lineBreak w).length + ((emitVal w y).length
                    + (emitMoreItems w ys).length) := by
              rw [hmore]
              simp [List.length_append]
              omega
            simp only [List.length_append] at hfuel
            rw [hlen] at hfuel
            simp only [List.length_append]
            omega
          have hkey := consumeItems y ys w u f (lineBreak w) rest (allWs_lineBreak w) hbound
          simp [hdrop, hkey]
termination_by x xs _ _ _ _ _ _ _ => sizeOf x + sizeOf xs
/-- Parsing serialised object members (first key's opening quote at the
head after whitespace) consumes them through the closing `}`. -/
theorem consumeMembers : ∀ (kv : String × Json) (ms : List (String × Json))
    (w u fuel : Nat) (ws rest : List Char),
    allWs ws = true →
    (emitMember w kv ++ emitMoreMembers w ms).length + 1 < fuel →
    jparseMembers fuel
        (ws ++ (emitMember w kv ++ (emitMoreMembers w ms ++ (lineBreak u ++ ('}' :: rest)))))
      = some (kv :: ms, rest)
  | (k, v), [], w, u, fuel, ws, rest, hws, hfuel => by
      cases fuel with
      | zero => exact absurd hfuel (by omega)
      | succ f =>
          rw [jparseMembers_succ]
          have hin : ws ++ (emitMember w (k, v)
                ++ (emitMoreMembers w [] ++ (lineBreak u ++ ('}' :: rest))))
              = ws ++ ('"' :: (k.data.flatMap quoteChar
                  ++ '"' :: (':' :: (' ' :: (emitVal w v
                  ++ (lineBreak u ++ ('}' :: rest))))))) := by
            simp [emitMember, strLit, emitMoreMembers]
          rw [hin, dropWs_allWs_append ws _ hws, dropWs_stop _ _ (by decide)]
          have hv : jparseVal f (' ' :: (emitVal w v ++ (lineBreak u ++ ('}' :: rest))))
              = some (v, lineBreak u ++ ('}' :: rest)) := by
            have hv0 := consumeVal v w f [' ']
              (lineBreak u ++ ('}' :: rest)) rfl
              (by simp only [emitMember, List.length_append, List.length_cons] at hfuel;
                  omega)
              (by rfl)
            simpa using hv0
          have hcolon : dropWs (':' :: (' ' :: (emitVal w v
                ++ (lineBreak u ++ ('}' :: rest)))))
              = ':' :: (' ' :: (emitVal w v ++ (lineBreak u ++ ('}' :: rest)))) :=
            dropWs_stop _ _ (by decide)
          have hdrop : dropWs (lineBreak u ++ ('}' :: rest)) = '}' :: rest := by
            rw [dropWs_lineBreak, dropWs_stop _ _ (by decide)]
          simp [strLit_scan, hcolon, hv, hdrop]
  | (k, v), (k2, v2) :: ms, w, u, fuel, ws, rest, hws, hfuel => by
      cases fuel with
      | zero => exact absurd hfuel (by omega)
      | succ f =>
          rw [jparseMembers_succ]
          have hmore : emitMoreMembers w ((k2, v2) :: ms)
              = ',' :: (lineBreak w ++ (emitMember w (k2, v2) ++ emitMoreMembers w ms)) := by
            simp [emitMoreMembers, List.append_assoc]
          have hin : ws ++ (emitMember w (k, v)
                ++ (emitMoreMembers w ((k2, v2) :: ms) ++ (lineBreak u ++ ('}' :: rest))))
              = ws ++ ('"' :: (k.data.flatMap quoteChar
                  ++ '"' :: (':' :: (' ' :: (emitVal w v
                  ++ (emitMoreMembers w ((k2, v2) :: ms)
                      ++ (lineBreak u ++ ('}' :: rest)))))))) := by
            simp [emitMember, strLit]
          rw [hin, dropWs_allWs_append ws _ hws, dropWs_stop _ _ (by decide)]
          have hv : jparseVal f (' ' :: (emitVal w v ++ (emitMoreMembers w ((k2, v2) :: ms)
                ++ (lineBreak u ++ ('}' :: rest)))))
              = some (v, emitMoreMembers w ((k2, v2) :: ms)
                  ++ (lineBreak u ++ ('}' :: rest))) := by
            have hv0 := consumeVal v w f [' ']
              (emitMoreMembers w ((k2, v2) :: ms) ++ (lineBreak u ++ ('}' :: rest))) rfl
              (by simp only [emitMember, List.length_append, List.length_cons] at hfuel;
                  omega)
              (by rw [hmore]; rfl)
            simpa using hv0
          have hcolon : dropWs (':' :: (' ' :: (emitVal w v
                ++ (emitMoreMembers w ((k2, v2) :: ms) ++ (lineBreak u ++ ('}' :: rest))))))
              = ':' :: (' ' :: (emitVal w v ++ (emitMoreMembers w ((k2, v2) :: ms)
                  ++ (lineBreak u ++ ('}' :: rest))))) :=
            dropWs_stop _ _ (by decide)
          have hdrop : dropWs (emitMoreMembers w ((k2, v2) :: ms)
                ++ (lineBreak u ++ ('}' :: rest)))
              = ',' :: (lineBreak w ++ (emitMember w (k2, v2) ++ (emitMoreMembers w ms
                  ++ (lineBreak u ++ ('}' :: rest))))) := by
            rw [hmore, List.cons_append, dropWs_stop _ _ (by decide)]
            simp [List.append_assoc]
          have hbound : (emitMember w (k2, v2) ++ emitMoreMembers w ms).length + 1 < f := by
            have hlen : (emitMoreMembers w ((k2, v2) :: ms)).length
                = 1 + (lineBreak w).length + ((emitMember w (k2, v2)).length
                    + (emitMoreMembers w ms).length) := by
              rw [hmore]
              simp [List.length_append]
              omega
            simp only [List.length_append] at hfuel
            rw [hlen] at hfuel
            simp only [List.length_append]
            omega
          have hkey := consumeMembers (k2, v2) ms w u f (lineBreak w) rest
            (allWs_lineBreak w) hbound
          simp [strLit_scan, hcolon, hv, hdrop, hkey]
termination_by kv ms _ _ _ _ _ _ _ => sizeOf kv + sizeOf ms
end

/-- **Codec round-trip**: `JSON.parse` applied to
`JSON.stringify(v, null, 2)` recovers exactly `v`, for every JSON value. -/
theorem jparse_stringify (j : Json) : jparse (stringify j) = some j := by
  have hv := consumeVal j 0 ((emitVal 0 j).length + 1) [] [] rfl (by omega) rfl
  rw [List.nil_append, List.append_nil] at hv
  unfold jparse stringify
  rw [show (String.mk (emitVal 0 j)).data = emitVal 0 j from rfl,
      show (String.mk (emitVal 0 j)).length = (emitVal 0 j).length from rfl,
      hv]
  rfl

end Json

/-- **C9**: whenever a tool's success response carries a structured mirror,
parsing the response's serialised text content yields precisely that
mirror — the two representations are semantically identical, optional
fields (`created_at`) included (they are simply absent from both). -/
theorem C9_text_parses_to_structured_mirror (client : ApiClient)
    (rnd : RandBytes) (nowMs : Int) (text u : String) (cnt : Option Int) :
    (∀ jm, (PostTweetTool.execute client rnd nowMs text).1.structuredContent = some jm →
      Json.jparse (PostTweetTool.execute client rnd nowMs text).1.contentText = some jm) ∧
    (∀ jm, (GetHomeTimelineTool.execute client rnd nowMs cnt).1.structuredContent = some jm →
      Json.jparse (GetHomeTimelineTool.execute client rnd nowMs cnt).1.contentText = some jm) ∧
    (∀ jm, (GetUserTweetsTool.execute client rnd nowMs u cnt).1.structuredContent = some jm →
      Json.jparse (GetUserTweetsTool.execute client rnd nowMs u cnt).1.contentText = some jm) := by
  refine ⟨?_, ?_, ?_⟩
  · intro jm hjm
    cases h : client.tweet text none with
    | error e =>
        rw [PostTweetTool.execute] at hjm ⊢
        simp only [h] at hjm ⊢
        exact absurd hjm (by simp [createErrorResponse])
    | ok t =>
        rw [PostTweetTool.execute] at hjm ⊢
        simp only [h, mirroredSuccess, Option.some.injEq] at hjm ⊢
        rw [← hjm]
        exact Json.jparse_stringify _
  · intro jm hjm
    cases h : client.homeTimeline (min (cnt.getD 10) 100) with
    | error e =>
        rw [GetHomeTimelineTool.execute] at hjm ⊢
        simp only [h] at hjm ⊢
        exact absurd hjm (by simp [createErrorResponse])
    | ok data =>
        rw [GetHomeTimelineTool.execute] at hjm ⊢
        simp only [h, mirroredSuccess, Option.some.injEq] at hjm ⊢
        rw [← hjm]
        exact Json.jparse_stringify _
  · intro jm hjm
    cases h : client.userByUsername u with
    | error e =>
        rw [GetUserTweetsTool.execute] at hjm ⊢
        simp only [h] at hjm ⊢
        exact absurd hjm (by simp [createErrorResponse])
    | ok uo =>
        cases uo with
        | none =>
            rw [GetUserTweetsTool.execute] at hjm ⊢
            simp only [h] at hjm ⊢
            exact absurd hjm (by simp [createErrorResponse])
        | some user =>
            cases h2 : client.userTimeline user.id (min (cnt.getD 10) 100) with
            | error e =>
                rw [GetUserTweetsTool.execute] at hjm ⊢
                simp only [h, h2] at hjm ⊢
                exact absurd hjm (by simp [createErrorResponse])
            | ok data =>
                rw [GetUserTweetsTool.execute] at hjm ⊢
                simp only [h, h2, mirroredSuccess, Option.some.injEq] at hjm ⊢
                rw [← hjm]
                exact Json.jparse_stringify _

/-- Witness for C9: the user-tweets tool against `stubClient` (whose tweets
carry no `created_at`), with the count omitted. -/
theorem C9_witness :
    (GetUserTweetsTool.execute stubClient rndA 0 "bob" none).1.structuredContent
      = some (UserTweetsResult.toJson
          { username := "bob", tweets := [{ id := "1", text := "hi", created_at := none }] }) ∧
    Json.jparse (GetUserTweetsTool.execute stubClient rndA 0 "bob" none).1.contentText
      = some (UserTweetsResult.toJson
          { username := "bob", tweets := [{ id := "1", text := "hi", created_at := none }] }) :=
  ⟨rfl,
   (C9_text_parses_to_structured_mirror stubClient rndA 0 "x" "bob" none).2.2
     (UserTweetsResult.toJson
       { username := "bob", tweets := [{ id := "1", text := "hi", created_at := none }] })
     rfl⟩
